import Mathlib

/-!
Shallow embedding of the rating-update core of `app/routes/compare.server.ts`
(the Elo image-comparison app): the Elo calculator, the random pair sampler
of the `loader`, the dual sliding-window rate limiter, and the vote `action`.
JavaScript floating-point numbers are idealised as real numbers; `Date.now()`
timestamps and random offsets are naturals; Prisma rows are a Lean structure
and the table a list of rows in stable order.
-/

/-- A row of the `Image` table, restricted to the columns the compare route
selects: `id`, `name`, `url`, `elo` (`compare.server.ts` lines 30-35). -/
structure Image where
  id : Int
  name : String
  url : String
  elo : Real

/-- `expectedWinner` of the action (line 190):
`1 / (1 + Math.pow(10, (loser.elo - winner.elo) / 400))`. -/
noncomputable def expectedWinner (winnerElo loserElo : Real) : Real :=
  1 / (1 + (10 : Real) ^ ((loserElo - winnerElo) / 400))

/-- The K-factor of the action (line 189). -/
def K : Real := 32

/-- The Elo rating update of the action (lines 189-194): given the current
winner and loser ratings, returns `(newWinnerElo, newLoserElo)` with
`expectedLoser = 1 - expectedWinner`,
`newWinnerElo = Math.max(0, winner.elo + K * (1 - expectedWinner))`,
`newLoserElo = Math.max(0, loser.elo + K * (0 - expectedLoser))`. -/
noncomputable def eloUpdate (winnerElo loserElo : Real) : Real × Real :=
  let eW := expectedWinner winnerElo loserElo
  let eL := 1 - eW
  (max 0 (winnerElo + K * (1 - eW)), max 0 (loserElo + K * (0 - eL)))

/-- The update formula as the spec states it (spec §4.2 bullet points),
written independently of the code for the refinement comparison. -/
noncomputable def eloSpecFormula (winnerRating loserRating : Real) : Real × Real :=
  (max 0 (winnerRating + 32 * (1 - 1 / (1 + (10 : Real) ^ ((loserRating - winnerRating) / 400)))),
   max 0 (loserRating + 32 * (0 - (1 - 1 / (1 + (10 : Real) ^ ((loserRating - winnerRating) / 400))))))

/-! ## Pair sampler (the `loader`, lines 5-56)

The RNG is modelled as a stream `s : Nat → Nat` of the successive values of
`Math.floor(Math.random() * totalImages)`; the while-loop that redraws the
second offset is given explicit fuel, `none` meaning that the loop has not
terminated within that many iterations. -/

/-- Errors the loader can signal. `insufficientData` is the
`"Need at least 2 images in database"` throw (line 14), `loadFailed` the
`"Failed to load images"` throw (line 49), and `rngStuck` is the modelling
artifact for the redraw while-loop (lines 22-24) not having terminated
within the provided fuel. -/
inductive LoaderError
  | insufficientData
  | loadFailed
  | rngStuck
deriving DecidableEq, Repr

/-- The while-loop of lines 22-24: starting at stream position `i`, redraw
`randomOffset2` until it differs from `randomOffset1 = o1`; `fuel` bounds the
number of draws inspected. -/
def redrawOffset (o1 : Nat) (s : Nat → Nat) (i : Nat) : Nat → Option Nat
  | 0 => none
  | fuel + 1 => if s i = o1 then redrawOffset o1 s (i + 1) fuel else some (s i)

/-- The `loader`: count the images; fewer than two is an error; otherwise draw
`randomOffset1` from the stream, redraw `randomOffset2` until distinct, and
resolve each offset by an order-stable skip into the table
(`findFirst` with `skip`, lines 27-46). -/
def loader (items : List Image) (s : Nat → Nat) (fuel : Nat) :
    Except LoaderError (Image × Image) :=
  let totalImages := items.length
  if totalImages < 2 then .error .insufficientData
  else
    let randomOffset1 := s 0
    match redrawOffset randomOffset1 s 1 fuel with
    | none => .error .rngStuck
    | some randomOffset2 =>
      match items[randomOffset1]?, items[randomOffset2]? with
      | some imageA, some imageB => .ok (imageA, imageB)
      | _, _ => .error .loadFailed

/-! ## Rate limiter (lines 71-169) -/

/-- One entry of `rateLimitMap` / `sessionRateLimitMap`:
`{ requests: number[], lastCleanup: number }`. -/
structure Bucket where
  requests : List Nat
  lastCleanup : Nat
deriving DecidableEq, Repr

/-- `requests.filter(time => now - time < windowMs)` (lines 146, 158).
Timestamps are naturals; truncated subtraction agrees with the JS
comparison because a timestamp later than `now` gives a negative (JS) or
zero (here) difference, below the window either way. -/
def recentRequests (b : Bucket) (now windowMs : Nat) : List Nat :=
  b.requests.filter fun time => now - time < windowMs

/-- One keyed rate-limit check (lines 145-150 for IP, 157-162 for session,
and the post-check update of lines 164-169): if the recent-request count has
reached `maxRequests`, reject (`none`); otherwise replace the bucket's
sequence by the filtered sequence with `now` appended. -/
def rateLimitCheck (b : Bucket) (now windowMs maxRequests : Nat) : Option Bucket :=
  let recent := recentRequests b now windowMs
  if maxRequests ≤ recent.length then none
  else some { requests := recent ++ [now], lastCleanup := b.lastCleanup }

/-- `windowMs = 60 * 1000` (line 131). -/
def windowMs : Nat := 60 * 1000

/-- `maxRequestsPerIP = 30` (line 132). -/
def maxRequestsPerIP : Nat := 30

/-- `maxRequestsPerSession = 20` (line 133). -/
def maxRequestsPerSession : Nat := 20

/-- The action's dual rate limiting (lines 140-169): the IP check runs first
and throws 429 on failure; then the session check; only when both pass are
both buckets updated. -/
def dualRateLimit (ipBucket sessionBucket : Bucket) (now : Nat) :
    Option (Bucket × Bucket) :=
  match rateLimitCheck ipBucket now windowMs maxRequestsPerIP with
  | none => none
  | some ipBucket' =>
    match rateLimitCheck sessionBucket now windowMs maxRequestsPerSession with
    | none => none
    | some sessionBucket' => some (ipBucket', sessionBucket')

/-- Replay a list of request timestamps through one keyed limiter, returning
the allow/reject decision of each request and the final bucket. A rejected
request leaves the bucket unchanged, exactly as a thrown 429 does. -/
def processRequests (b : Bucket) (windowMs maxRequests : Nat) :
    List Nat → List Bool × Bucket
  | [] => ([], b)
  | now :: rest =>
    match rateLimitCheck b now windowMs maxRequests with
    | none =>
      let (ds, bFinal) := processRequests b windowMs maxRequests rest
      (false :: ds, bFinal)
    | some b' =>
      let (ds, bFinal) := processRequests b' windowMs maxRequests rest
      (true :: ds, bFinal)

/-! ## Vote action (lines 105-217) -/

/-- Errors the `action` surfaces. `invalidInput` is the
`"Invalid image IDs"` throw (line 112), `rateLimited` the 429 `Response`
throws (lines 149, 161), and `updateFailed` the catch-all
`"Failed to update ratings. Please try again."` throw (line 215). -/
inductive ActionError
  | invalidInput
  | rateLimited
  | updateFailed
deriving DecidableEq, Repr

/-- Errors arising inside the `try` block before the catch rewrites them:
the `"Images not found"` throw (line 185) and a store failure of the
`$transaction` (lines 197-206). -/
inductive TryError
  | notFound
  | storeFailure
deriving DecidableEq, Repr

/-- The value of `Number(formData.get(...))` (lines 107-108): a JavaScript
number, which is `NaN` for a non-numeric string, but can also be a finite
non-integer (`Number("1.5") = 1.5`, `Number(null) = 0` for a missing field)
or an infinity (`Number("Infinity")`). Finite values are idealised as
rationals, matching the real-number idealisation of the ratings. -/
inductive JSNumber
  | nan
  | finite (q : Rat)
  | posInf
  | negInf
deriving DecidableEq, Repr

/-- JavaScript `isNaN` on a parsed number. -/
def jsIsNaN : JSNumber → Bool
  | .nan => true
  | _ => false

/-- JavaScript `===` on two parsed numbers: `NaN` compares unequal to
everything, itself included; the infinities compare equal to themselves. -/
def jsEq : JSNumber → JSNumber → Bool
  | .finite a, .finite b => a == b
  | .posInf, .posInf => true
  | .negInf, .negInf => true
  | _, _ => false

/-- Whether a parsed number equals an integer row id under JavaScript `===`:
only a finite value that is exactly that integer matches (rationals are
normalised, so `den = 1` characterises the integers); `1.5`, the infinities
and `NaN` match no row. -/
def jsEqInt (x : JSNumber) (n : Int) : Bool :=
  match x with
  | .finite q => q.num = n && q.den = 1
  | _ => false

/-- `db.image.findUnique({ where: { id } })` on the modelled table, keyed by
the raw parsed number the action passes (lines 174, 178). -/
def findUnique (db : List Image) (target : JSNumber) : Option Image :=
  db.find? fun img => jsEqInt target img.id

/-- One `db.image.update({ where: { id }, data: { elo } })`: the row whose
unique id matches the raw parsed number gets the new elo; every other row
and every other column is untouched. -/
def updateElo (db : List Image) (target : JSNumber) (elo : Real) : List Image :=
  db.map fun img => if jsEqInt target img.id then { img with elo := elo } else img

/-- The `$transaction` of lines 197-206: update the winner row, then the
loser row, atomically. -/
def applyTransaction (db : List Image) (winnerId loserId : JSNumber)
    (newWinnerElo newLoserElo : Real) : List Image :=
  updateElo (updateElo db winnerId newWinnerElo) loserId newLoserElo

/-- The body of the `try` block (lines 172-212): look up both rows, fail with
`notFound` if either is missing, compute the Elo update from the current
ratings, and commit the transaction. `storeOk` models whether the store's
transactional write succeeds; on a store failure nothing is applied. -/
noncomputable def voteTry (db : List Image) (winnerId loserId : JSNumber) (storeOk : Bool) :
    Except TryError (List Image) :=
  match findUnique db winnerId, findUnique db loserId with
  | some winner, some loser =>
    let newRatings := eloUpdate winner.elo loser.elo
    if storeOk then
      .ok (applyTransaction db winnerId loserId newRatings.1 newRatings.2)
    else .error .storeFailure
  | _, _ => .error .notFound

/-- The full state an `action` call reads and writes: the result of the
request together with the post-state of the table and the two rate-limit
buckets of the caller's identity. -/
structure ActionResult where
  result : Except ActionError Bool
  db : List Image
  ipBucket : Bucket
  sessionBucket : Bucket

/-- The `action` (lines 105-217) for one request. `winnerId`/`loserId` are
the `Number(...)` parses of the form fields. The validation of line 111,
`isNaN(winnerId) || isNaN(loserId) || winnerId === loserId`, runs first and
touches nothing — note it admits numeric non-integer parses such as `1.5`,
`Infinity` or `0` from a missing field; then the dual rate limit, which on
success records `now` in both buckets; then the `try` block, whose two
distinct internal errors the `catch` collapses into the single generic
`updateFailed` (lines 213-216), with the table left unchanged. -/
noncomputable def voteAction (db : List Image) (winnerId loserId : JSNumber)
    (ipBucket sessionBucket : Bucket) (now : Nat) (storeOk : Bool) : ActionResult :=
  if jsIsNaN winnerId || jsIsNaN loserId || jsEq winnerId loserId then
    ⟨.error .invalidInput, db, ipBucket, sessionBucket⟩
  else
    match dualRateLimit ipBucket sessionBucket now with
    | none => ⟨.error .rateLimited, db, ipBucket, sessionBucket⟩
    | some (ipBucket', sessionBucket') =>
      match voteTry db winnerId loserId storeOk with
      | .ok db' => ⟨.ok true, db', ipBucket', sessionBucket'⟩
      | .error _ => ⟨.error .updateFailed, db, ipBucket', sessionBucket'⟩

section EloLemmas

lemma expectedWinner_pos (w l : Real) : 0 < expectedWinner w l := by
  have h : (0 : Real) < (10 : Real) ^ ((l - w) / 400) :=
    Real.rpow_pos_of_pos (by norm_num) _
  have : (0 : Real) < 1 + (10 : Real) ^ ((l - w) / 400) := by linarith
  exact div_pos one_pos this

lemma expectedWinner_lt_one (w l : Real) : expectedWinner w l < 1 := by
  have h : (0 : Real) < (10 : Real) ^ ((l - w) / 400) :=
    Real.rpow_pos_of_pos (by norm_num) _
  have h1 : (0 : Real) < 1 + (10 : Real) ^ ((l - w) / 400) := by linarith
  rw [expectedWinner, div_lt_one h1]
  linarith

/-- The expected winner score strictly increases as the gap
`winnerElo - loserElo` increases. -/
lemma expectedWinner_strict {w1 l1 w2 l2 : Real} (h : l1 - w1 < l2 - w2) :
    expectedWinner w2 l2 < expectedWinner w1 l1 := by
  have hd : (l1 - w1) / 400 < (l2 - w2) / 400 := by linarith
  have hpow : (10 : Real) ^ ((l1 - w1) / 400) < (10 : Real) ^ ((l2 - w2) / 400) :=
    (Real.rpow_lt_rpow_left_iff (by norm_num)).mpr hd
  have h1 : (0 : Real) < 1 + (10 : Real) ^ ((l1 - w1) / 400) := by
    have := Real.rpow_pos_of_pos (show (0:Real) < 10 by norm_num) ((l1 - w1) / 400)
    linarith
  rw [expectedWinner, expectedWinner]
  rw [div_lt_div_iff₀ (by linarith) h1]
  linarith

lemma expectedWinner_equal (r : Real) : expectedWinner r r = 1 / 2 := by
  have h : (r - r) / 400 = (0 : Real) := by ring
  rw [expectedWinner, h, Real.rpow_zero]
  norm_num

/-- Complementarity of expected scores under role reversal. -/
lemma expectedWinner_add_swap (x y : Real) :
    expectedWinner x y + expectedWinner y x = 1 := by
  have hp : (0 : Real) < (10 : Real) ^ ((y - x) / 400) :=
    Real.rpow_pos_of_pos (by norm_num) _
  have hswap : (10 : Real) ^ ((x - y) / 400) = ((10 : Real) ^ ((y - x) / 400))⁻¹ := by
    rw [show (x - y) / 400 = -((y - x) / 400) by ring,
      Real.rpow_neg (by norm_num)]
  rw [expectedWinner, expectedWinner, hswap]
  field_simp
  ring

lemma eloUpdate_equal_ratings : eloUpdate 1200 1200 = (1216, 1184) := by
  rw [eloUpdate, expectedWinner_equal]
  have h1 : (0 : Real) ⊔ (1200 + K * (1 - 1 / 2)) = 1216 := by
    rw [K]; rw [max_eq_right (by norm_num)]; norm_num
  have h2 : (0 : Real) ⊔ (1200 + K * (0 - (1 - 1 / 2))) = 1184 := by
    rw [K]; rw [max_eq_right (by norm_num)]; norm_num
  simp only [h1, h2]

end EloLemmas

/-- C1: the action's Elo update agrees with the spec's formula at every
pair of ratings, and at two equal ratings of 1200 one vote yields winner
rating 1216 and loser rating 1184. -/
theorem eloUpdate_matches_spec_formula :
    (∀ w l : Real, eloUpdate w l = eloSpecFormula w l) ∧
    eloUpdate 1200 1200 = (1216, 1184) := by
  constructor
  · intro w l
    rw [eloUpdate, eloSpecFormula, expectedWinner, K]
  · exact eloUpdate_equal_ratings

section EloNonneg

lemma eloUpdate_fst_nonneg (w l : Real) : 0 ≤ (eloUpdate w l).1 :=
  le_max_left 0 _

lemma eloUpdate_snd_nonneg (w l : Real) : 0 ≤ (eloUpdate w l).2 :=
  le_max_left 0 _

lemma updateElo_elo_nonneg {db : List Image} {target : JSNumber} {e : Real}
    (hdb : ∀ img ∈ db, 0 ≤ img.elo) (he : 0 ≤ e) :
    ∀ img ∈ updateElo db target e, 0 ≤ img.elo := by
  intro img hmem
  rw [updateElo, List.mem_map] at hmem
  obtain ⟨a, ha, rfl⟩ := hmem
  cases h : jsEqInt target a.id
  · simp [h]
    exact hdb a ha
  · simp [h, he]

/-- Every path of the action either returns the table unchanged or commits
the Elo transaction computed from the two looked-up rows. -/
lemma voteAction_db_cases (db : List Image) (winnerId loserId : JSNumber)
    (ipB sesB : Bucket) (now : Nat) (storeOk : Bool) :
    (voteAction db winnerId loserId ipB sesB now storeOk).db = db ∨
    ∃ winner loser,
      findUnique db winnerId = some winner ∧ findUnique db loserId = some loser ∧
      (voteAction db winnerId loserId ipB sesB now storeOk).db =
        applyTransaction db winnerId loserId (eloUpdate winner.elo loser.elo).1
          (eloUpdate winner.elo loser.elo).2 := by
  cases hval : jsIsNaN winnerId || jsIsNaN loserId || jsEq winnerId loserId with
  | true => left; simp [voteAction, hval]
  | false =>
    cases hrl : dualRateLimit ipB sesB now with
    | none => left; simp [voteAction, hval, hrl]
    | some p =>
      obtain ⟨ipB', sesB'⟩ := p
      cases hw : findUnique db winnerId with
      | none => left; simp [voteAction, hval, hrl, voteTry, hw]
      | some winner =>
        cases hl : findUnique db loserId with
        | none => left; simp [voteAction, hval, hrl, voteTry, hw, hl]
        | some loser =>
          cases storeOk with
          | false => left; simp [voteAction, hval, hrl, voteTry, hw, hl]
          | true =>
            right
            refine ⟨winner, loser, rfl, rfl, ?_⟩
            simp [voteAction, hval, hrl, voteTry, hw, hl]

end EloNonneg

/-- C2: both Elo outputs are clamped at 0, hence nonnegative for every pair
of input ratings, and consequently the invariant `0 ≤ elo` on every row is
preserved by every action call. -/
theorem eloUpdate_nonneg_invariant :
    (∀ w l : Real, 0 ≤ (eloUpdate w l).1 ∧ 0 ≤ (eloUpdate w l).2) ∧
    (∀ (db : List Image) (winnerId loserId : JSNumber) (ipB sesB : Bucket)
      (now : Nat) (storeOk : Bool),
      (∀ img ∈ db, 0 ≤ img.elo) →
      ∀ img ∈ (voteAction db winnerId loserId ipB sesB now storeOk).db,
        0 ≤ img.elo) := by
  constructor
  · exact fun w l => ⟨eloUpdate_fst_nonneg w l, eloUpdate_snd_nonneg w l⟩
  · intro db winnerId loserId ipB sesB now storeOk hdb
    rcases voteAction_db_cases db winnerId loserId ipB sesB now storeOk with
      heq | ⟨winner, loser, _, _, heq⟩
    · rw [heq]; exact hdb
    · rw [heq, applyTransaction]
      exact updateElo_elo_nonneg
        (updateElo_elo_nonneg hdb (eloUpdate_fst_nonneg _ _))
        (eloUpdate_snd_nonneg _ _)

/-- Witness for C2 at a concrete table: the single row keeps a nonnegative
rating through an action call. -/
theorem eloUpdate_nonneg_invariant_witness :
    0 ≤ (Image.mk 1 "imgA" "/a.webp" 1200).elo := by
  refine eloUpdate_nonneg_invariant.2 [Image.mk 1 "imgA" "/a.webp" 1200]
    .nan .nan ⟨[], 0⟩ ⟨[], 0⟩ 0 true ?_ (Image.mk 1 "imgA" "/a.webp" 1200) ?_
  · intro img hm
    rw [List.mem_singleton] at hm
    subst hm
    norm_num
  · show Image.mk 1 "imgA" "/a.webp" 1200 ∈
      (voteAction [Image.mk 1 "imgA" "/a.webp" 1200] .nan .nan ⟨[], 0⟩ ⟨[], 0⟩ 0 true).db
    simp [voteAction, jsIsNaN]

/-- C3 counterexample: the literal symmetry `update(x, y) = swap (update(y, x))`
fails already at two equal ratings of 1200, where it would force
`1216 = 1184`. -/
theorem eloUpdate_swap_counterexample :
    ¬ (eloUpdate 1200 1200 = Prod.swap (eloUpdate 1200 1200)) := by
  rw [eloUpdate_equal_ratings]
  intro h
  have h1 : (1216 : Real) = 1184 := congrArg Prod.fst h
  norm_num at h1

/-- C3 amended: the true role symmetry of the update. Expected scores are
complementary under swapping the two ratings, and consequently the update is
the zero-sum nudge by `K * expectedWinner l w` in each direction: each new
rating depends only on the item's own rating, the opponent's rating and the
outcome, never on anything else about argument position. -/
theorem eloUpdate_role_symmetry :
    ∀ x y : Real,
      expectedWinner x y + expectedWinner y x = 1 ∧
      eloUpdate x y =
        (max 0 (x + K * expectedWinner y x), max 0 (y - K * expectedWinner y x)) := by
  intro x y
  have h := expectedWinner_add_swap x y
  refine ⟨h, ?_⟩
  have hswap : expectedWinner y x = 1 - expectedWinner x y := by linarith
  rw [eloUpdate, hswap]
  simp only [Prod.mk.injEq]
  constructor
  · trivial
  · congr 1
    ring

section DoubleVote

lemma K_pos : (0 : Real) < K := by rw [K]; norm_num

lemma eloUpdate_fst_eq {w l : Real} (hw : 0 ≤ w) :
    (eloUpdate w l).1 = w + K * (1 - expectedWinner w l) := by
  have hlt := expectedWinner_lt_one w l
  have hpos : 0 < K * (1 - expectedWinner w l) :=
    mul_pos K_pos (by linarith)
  show max 0 (w + K * (1 - expectedWinner w l)) = _
  exact max_eq_right (by linarith)

lemma eloUpdate_snd_le {w l : Real} (hl : 0 ≤ l) :
    (eloUpdate w l).2 ≤ l := by
  have hlt := expectedWinner_lt_one w l
  have hpos : 0 < K * (1 - expectedWinner w l) :=
    mul_pos K_pos (by linarith)
  show max 0 (l + K * (0 - (1 - expectedWinner w l))) ≤ l
  exact max_le hl (by linarith)

end DoubleVote

/-- C4: the vote is not idempotent. Starting from nonnegative ratings, the
first application changes the state, the second application (reading the
already-updated ratings, as the action does) changes it again, and the
winner's rating delta of the second vote differs from that of the first. -/
theorem vote_twice_not_idempotent (a b : Real) (ha : 0 ≤ a) (hb : 0 ≤ b) :
    eloUpdate a b ≠ (a, b) ∧
    eloUpdate (eloUpdate a b).1 (eloUpdate a b).2 ≠ eloUpdate a b ∧
    (eloUpdate (eloUpdate a b).1 (eloUpdate a b).2).1 - (eloUpdate a b).1 ≠
      (eloUpdate a b).1 - a := by
  have he1pos := expectedWinner_pos a b
  have he1lt := expectedWinner_lt_one a b
  have hd1pos : 0 < K * (1 - expectedWinner a b) := mul_pos K_pos (by linarith)
  have ha1 : (eloUpdate a b).1 = a + K * (1 - expectedWinner a b) :=
    eloUpdate_fst_eq ha
  have hb1le : (eloUpdate a b).2 ≤ b := eloUpdate_snd_le hb
  have ha1nonneg : 0 ≤ (eloUpdate a b).1 := eloUpdate_fst_nonneg a b
  have hgap : (eloUpdate a b).2 - (eloUpdate a b).1 < b - a := by
    rw [ha1]; linarith
  have he2gt : expectedWinner a b < expectedWinner (eloUpdate a b).1 (eloUpdate a b).2 :=
    expectedWinner_strict hgap
  have he2lt := expectedWinner_lt_one (eloUpdate a b).1 (eloUpdate a b).2
  have hd2pos : 0 < K * (1 - expectedWinner (eloUpdate a b).1 (eloUpdate a b).2) :=
    mul_pos K_pos (by linarith)
  have hd2lt : K * (1 - expectedWinner (eloUpdate a b).1 (eloUpdate a b).2) <
      K * (1 - expectedWinner a b) := by
    apply mul_lt_mul_of_pos_left _ K_pos
    linarith
  have ha2 : (eloUpdate (eloUpdate a b).1 (eloUpdate a b).2).1 =
      (eloUpdate a b).1 + K * (1 - expectedWinner (eloUpdate a b).1 (eloUpdate a b).2) :=
    eloUpdate_fst_eq ha1nonneg
  refine ⟨?_, ?_, ?_⟩
  · intro h
    have h1 : (eloUpdate a b).1 = a := congrArg Prod.fst h
    rw [ha1] at h1
    linarith
  · intro h
    have h1 : (eloUpdate (eloUpdate a b).1 (eloUpdate a b).2).1 = (eloUpdate a b).1 :=
      congrArg Prod.fst h
    rw [ha2] at h1
    linarith
  · intro h
    rw [ha2] at h
    linarith [ha1, hd2lt]

/-- Witness for C4 at two items both rated 1200. -/
theorem vote_twice_not_idempotent_witness :
    eloUpdate 1200 1200 ≠ ((1200 : Real), (1200 : Real)) ∧
    eloUpdate (eloUpdate 1200 1200).1 (eloUpdate 1200 1200).2 ≠ eloUpdate 1200 1200 ∧
    (eloUpdate (eloUpdate 1200 1200).1 (eloUpdate 1200 1200).2).1 -
        (eloUpdate 1200 1200).1 ≠ (eloUpdate 1200 1200).1 - 1200 :=
  vote_twice_not_idempotent 1200 1200 (by norm_num) (by norm_num)

section Sampler

/-- Any offset the redraw loop returns differs from the first offset. -/
lemma redrawOffset_ne {o1 : Nat} {s : Nat → Nat} {i fuel o2 : Nat}
    (h : redrawOffset o1 s i fuel = some o2) : o2 ≠ o1 := by
  induction fuel generalizing i with
  | zero => simp [redrawOffset] at h
  | succ n ih =>
    rw [redrawOffset] at h
    by_cases hc : s i = o1
    · rw [if_pos hc] at h
      exact ih h
    · rw [if_neg hc] at h
      cases h
      exact hc

/-- Against an RNG that keeps returning the colliding offset, the redraw
loop makes no progress no matter how long it runs. -/
lemma redrawOffset_const_stuck (o1 i fuel : Nat) :
    redrawOffset o1 (fun _ => o1) i fuel = none := by
  induction fuel generalizing i with
  | zero => rfl
  | succ n ih => simp [redrawOffset, ih]

/-- A sample two-row table for concrete witnesses. -/
def sampleA : Image := ⟨1, "imgA", "/external-images/a.webp", 1200⟩

/-- Second sample row. -/
def sampleB : Image := ⟨2, "imgB", "/external-images/b.webp", 1200⟩

end Sampler

/-- C5: with fewer than two images the loader fails with the
insufficient-data error, and whenever the table holds exactly two images
(with the ids pairwise distinct, as the primary key guarantees) a successful
sample returns exactly those two images, in one order or the other, with
distinct ids. -/
theorem loader_pair_spec :
    (∀ (items : List Image) (s : Nat → Nat) (fuel : Nat),
      items.length < 2 → loader items s fuel = .error .insufficientData) ∧
    (∀ (items : List Image) (s : Nat → Nat) (fuel : Nat) (a b : Image),
      items.length = 2 → (items.map Image.id).Nodup →
      loader items s fuel = .ok (a, b) →
      a.id ≠ b.id ∧
        ((items[0]? = some a ∧ items[1]? = some b) ∨
         (items[0]? = some b ∧ items[1]? = some a))) := by
  constructor
  · intro items s fuel h
    simp [loader, h]
  · intro items s fuel a b hlen hnodup hok
    obtain ⟨x, y, rfl⟩ := List.length_eq_two.mp hlen
    simp at hnodup
    rw [loader] at hok
    simp only [List.length_cons, List.length_nil] at hok
    rw [if_neg (by norm_num)] at hok
    cases hred : redrawOffset (s 0) s 1 fuel with
    | none => rw [hred] at hok; cases hok
    | some o2 =>
      rw [hred] at hok
      have hne : o2 ≠ s 0 := redrawOffset_ne hred
      rcases hs0 : s 0 with _ | _ | m
      · rcases ho2 : o2 with _ | _ | m2
        · rw [hs0, ho2] at hne; exact absurd rfl hne
        · rw [hs0, ho2] at hok
          simp at hok
          obtain ⟨rfl, rfl⟩ := hok
          exact ⟨hnodup, Or.inl ⟨rfl, rfl⟩⟩
        · rw [hs0, ho2] at hok
          simp at hok
      · rcases ho2 : o2 with _ | _ | m2
        · rw [hs0, ho2] at hok
          simp at hok
          obtain ⟨rfl, rfl⟩ := hok
          exact ⟨fun h => hnodup h.symm, Or.inr ⟨rfl, rfl⟩⟩
        · rw [hs0, ho2] at hne; exact absurd rfl hne
        · rw [hs0, ho2] at hok
          simp at hok
      · rw [hs0] at hok
        simp at hok

/-- Witness for C5: a two-row table with the identity RNG stream yields the
two rows in order. -/
theorem loader_pair_spec_witness :
    sampleA.id ≠ sampleB.id ∧
      (([sampleA, sampleB][0]? = some sampleA ∧ [sampleA, sampleB][1]? = some sampleB) ∨
       ([sampleA, sampleB][0]? = some sampleB ∧ [sampleA, sampleB][1]? = some sampleA)) :=
  loader_pair_spec.2 [sampleA, sampleB] (fun i => i) 1 sampleA sampleB rfl
    (by decide) rfl

/-- C6 counterexample: the claim that the redraw loop retries only a bounded
number of times and then terminates by a fallback scan, under every RNG
sequence, is false: no retry bound works for the constant colliding stream. -/
theorem redraw_bounded_counterexample :
    ¬ ∃ bound : Nat, ∀ s : Nat → Nat, (redrawOffset 0 s 1 bound).isSome = true := by
  rintro ⟨bound, h⟩
  have hc := h (fun _ => 0)
  rw [redrawOffset_const_stuck] at hc
  cases hc

/-- C6 amended: the loop redraws until the second offset differs from the
first, with no retry bound and no fallback scan: any offset it returns is
distinct from the first pick, but under an RNG that always repeats the first
offset it never terminates, for every amount of fuel. -/
theorem redraw_until_distinct :
    (∀ (o1 : Nat) (s : Nat → Nat) (i fuel o2 : Nat),
      redrawOffset o1 s i fuel = some o2 → o2 ≠ o1) ∧
    (∀ o1 fuel : Nat, redrawOffset o1 (fun _ => o1) 1 fuel = none) := by
  constructor
  · intro o1 s i fuel o2 h
    exact redrawOffset_ne h
  · intro o1 fuel
    exact redrawOffset_const_stuck o1 1 fuel

/-- Witness for C6's amended statement: a stream drawing 1 after a first
offset of 0 returns 1, which differs from 0. -/
theorem redraw_until_distinct_witness :
    redrawOffset 0 (fun _ => 1) 1 1 = some 1 ∧ (1 : Nat) ≠ 0 :=
  ⟨rfl, redraw_until_distinct.1 0 (fun _ => 1) 1 1 1 rfl⟩

/-- C7: a keyed rate-limit check rejects exactly when the count of recorded
timestamps inside the trailing window has reached the configured maximum, and
otherwise appends the current timestamp and allows; replaying a max-3 window
of 60s, the 4th request inside the window is rejected while a request after
the window has fully elapsed is allowed; and the action's combined limiter
accepts exactly when both the IP check (max 30) and the session check
(max 20) accept. -/
theorem rateLimit_spec :
    (∀ (b : Bucket) (now wMs maxReq : Nat),
      (rateLimitCheck b now wMs maxReq = none ↔
        maxReq ≤ (recentRequests b now wMs).length) ∧
      (∀ b', rateLimitCheck b now wMs maxReq = some b' →
        b'.requests = recentRequests b now wMs ++ [now])) ∧
    (processRequests ⟨[], 0⟩ (60 * 1000) 3 [0, 1000, 2000, 3000, 70000]).1 =
      [true, true, true, false, true] ∧
    (∀ (ipB sesB : Bucket) (now : Nat),
      (dualRateLimit ipB sesB now).isSome = true ↔
        ((rateLimitCheck ipB now windowMs maxRequestsPerIP).isSome = true ∧
         (rateLimitCheck sesB now windowMs maxRequestsPerSession).isSome = true)) := by
  refine ⟨?_, by decide, ?_⟩
  · intro b now wMs maxReq
    constructor
    · by_cases h : maxReq ≤ (recentRequests b now wMs).length
      · simp [rateLimitCheck, h]
      · simp [rateLimitCheck, h]
    · intro b' hb'
      by_cases h : maxReq ≤ (recentRequests b now wMs).length
      · rw [rateLimitCheck] at hb'
        simp [h] at hb'
      · rw [rateLimitCheck] at hb'
        simp [h] at hb'
        rw [← hb']
  · intro ipB sesB now
    cases hip : rateLimitCheck ipB now windowMs maxRequestsPerIP with
    | none => simp [dualRateLimit, hip]
    | some ipB' =>
      cases hses : rateLimitCheck sesB now windowMs maxRequestsPerSession with
      | none => simp [dualRateLimit, hip, hses]
      | some sesB' => simp [dualRateLimit, hip, hses]

/-- Witness for C7: an empty bucket allows a request at time 5 and records
exactly that timestamp. -/
theorem rateLimit_spec_witness :
    (Bucket.mk [5] 0).requests = recentRequests ⟨[], 0⟩ 5 windowMs ++ [5] :=
  (rateLimit_spec.1 ⟨[], 0⟩ 5 windowMs 3).2 ⟨[5], 0⟩ rfl

/-- C8 counterexample: an unresolvable id and a store failure surface the
same single generic error, because the catch block (lines 213-216) rewrites
its own `"Images not found"` throw into the generic failure; the claimed
distinct, 4xx-distinguishable `NotFound` does not exist at the boundary. -/
theorem notFound_not_distinct_counterexample :
    (voteAction [sampleA, sampleB] (.finite 7) (.finite 2) ⟨[], 0⟩ ⟨[], 0⟩ 0 true).result =
      .error .updateFailed ∧
    (voteAction [sampleA, sampleB] (.finite 1) (.finite 2) ⟨[], 0⟩ ⟨[], 0⟩ 0 false).result =
      .error .updateFailed ∧
    (voteAction [sampleA, sampleB] (.finite 7) (.finite 2) ⟨[], 0⟩ ⟨[], 0⟩ 0 true).result =
      (voteAction [sampleA, sampleB] (.finite 1) (.finite 2) ⟨[], 0⟩ ⟨[], 0⟩ 0 false).result := by
  refine ⟨?_, ?_, ?_⟩ <;> rfl

/-- C8 amended: when either id cannot be resolved the vote fails and no
rating changes, and a store failure during the atomic update likewise leaves
the prior table intact and is reported upward as an error; but both failures
surface as the one generic `updateFailed` error, not as a distinct
`NotFound`. -/
theorem vote_failure_uniform (db : List Image) (w l : JSNumber) (ipB sesB : Bucket)
    (now : Nat) (storeOk : Bool) (p : Bucket × Bucket)
    (hval : (jsIsNaN w || jsIsNaN l || jsEq w l) = false)
    (hlim : dualRateLimit ipB sesB now = some p) :
    ((findUnique db w = none ∨ findUnique db l = none) →
      voteAction db w l ipB sesB now storeOk =
        ⟨.error .updateFailed, db, p.1, p.2⟩) ∧
    (storeOk = false →
      voteAction db w l ipB sesB now storeOk =
        ⟨.error .updateFailed, db, p.1, p.2⟩) := by
  obtain ⟨ipB', sesB'⟩ := p
  constructor
  · rintro (hw | hl)
    · simp [voteAction, hval, hlim, voteTry, hw]
    · cases hw : findUnique db w with
      | none => simp [voteAction, hval, hlim, voteTry, hw]
      | some wimg => simp [voteAction, hval, hlim, voteTry, hw, hl]
  · rintro rfl
    cases hw : findUnique db w with
    | none => simp [voteAction, hval, hlim, voteTry, hw]
    | some wimg =>
      cases hl : findUnique db l with
      | none => simp [voteAction, hval, hlim, voteTry, hw, hl]
      | some limg => simp [voteAction, hval, hlim, voteTry, hw, hl]

/-- Witness for C8's amended statement: a missing winner id on a two-row
table yields the generic failure with the table unchanged. -/
theorem vote_failure_uniform_witness :
    voteAction [sampleA, sampleB] (.finite 7) (.finite 2) ⟨[], 0⟩ ⟨[], 0⟩ 0 true =
      ⟨.error .updateFailed, [sampleA, sampleB], ⟨[0], 0⟩, ⟨[0], 0⟩⟩ :=
  (vote_failure_uniform [sampleA, sampleB] (.finite 7) (.finite 2) ⟨[], 0⟩ ⟨[], 0⟩ 0 true
    (⟨[0], 0⟩, ⟨[0], 0⟩) (by decide) rfl).1 (Or.inl rfl)

/-- C9 counterexample: an ill-formed id that parses to a non-NaN number —
here `Number("Infinity")` as winner id — is not rejected as invalid input:
the line-111 validation only catches `NaN`, so the request records a
rate-limit timestamp in the IP bucket and then fails inside the try block
with the generic error, not with `invalidInput`. -/
theorem invalid_input_counterexample :
    (voteAction [sampleA, sampleB] .posInf (.finite 2) ⟨[], 0⟩ ⟨[], 0⟩ 0 true).result =
      .error .updateFailed ∧
    ActionError.updateFailed ≠ ActionError.invalidInput ∧
    (voteAction [sampleA, sampleB] .posInf (.finite 2) ⟨[], 0⟩ ⟨[], 0⟩ 0 true).ipBucket =
      ⟨[0], 0⟩ ∧
    Bucket.mk [0] 0 ≠ ⟨[], 0⟩ :=
  ⟨rfl, by decide, rfl, by decide⟩

/-- C9 amended: the vote is rejected with `invalidInput` exactly when either
parse is `NaN` or the two parsed values compare equal under JavaScript `===`;
in that case the failure is detected before any mutation — the table and
both rate-limit buckets are returned exactly as they were. An ill-formed id
that parses to a non-NaN number (`1.5`, `Infinity`, `0` from a missing
field) is not rejected as invalid input. -/
theorem invalid_input_nan_or_equal :
    ∀ (db : List Image) (winnerId loserId : JSNumber) (ipB sesB : Bucket)
      (now : Nat) (storeOk : Bool),
      ((jsIsNaN winnerId || jsIsNaN loserId || jsEq winnerId loserId) = true →
        voteAction db winnerId loserId ipB sesB now storeOk =
          ⟨.error .invalidInput, db, ipB, sesB⟩) ∧
      ((jsIsNaN winnerId || jsIsNaN loserId || jsEq winnerId loserId) = false →
        (voteAction db winnerId loserId ipB sesB now storeOk).result ≠
          .error .invalidInput) := by
  intro db winnerId loserId ipB sesB now storeOk
  constructor
  · intro h
    simp [voteAction, h]
  · intro h
    rw [voteAction, if_neg (by simp [h])]
    cases hdl : dualRateLimit ipB sesB now with
    | none => simp
    | some p =>
      obtain ⟨ipB', sesB'⟩ := p
      cases hvt : voteTry db winnerId loserId storeOk with
      | ok db' => simp
      | error e => simp

/-- Witness for C9's amended statement: submitting the same parsed id as
winner and loser is rejected with nothing mutated. -/
theorem invalid_input_nan_or_equal_witness :
    voteAction [sampleA] (.finite 3) (.finite 3) ⟨[], 0⟩ ⟨[], 0⟩ 0 true =
      ⟨.error .invalidInput, [sampleA], ⟨[], 0⟩, ⟨[], 0⟩⟩ :=
  (invalid_input_nan_or_equal [sampleA] (.finite 3) (.finite 3) ⟨[], 0⟩ ⟨[], 0⟩
    0 true).1 rfl

section Frame

lemma ifUpdate_fields (img : Image) (target : JSNumber) (e : Real) :
    ((if jsEqInt target img.id then { img with elo := e } else img).id = img.id ∧
     (if jsEqInt target img.id then { img with elo := e } else img).name = img.name ∧
     (if jsEqInt target img.id then { img with elo := e } else img).url = img.url) ∧
    (jsEqInt target img.id = false →
      (if jsEqInt target img.id then { img with elo := e } else img) = img) := by
  cases h : jsEqInt target img.id
  · simp [h]
  · simp [h]

/-- The transaction changes only the `elo` column of the two addressed rows:
lengths agree, every row keeps its `id`, `name` and `url`, and a row whose id
is neither the winner's nor the loser's is untouched entirely. -/
lemma applyTransaction_frame (db : List Image) (w l : JSNumber) (nw nl : Real) :
    (applyTransaction db w l nw nl).length = db.length ∧
    ∀ (i : Nat) (before after : Image),
      db[i]? = some before →
      (applyTransaction db w l nw nl)[i]? = some after →
      after.id = before.id ∧ after.name = before.name ∧ after.url = before.url ∧
      (jsEqInt w before.id = false → jsEqInt l before.id = false → after = before) := by
  constructor
  · simp [applyTransaction, updateElo]
  · intro i before after hb ha
    rw [applyTransaction, updateElo, List.getElem?_map, updateElo,
      List.getElem?_map, hb] at ha
    simp only [Option.map_some'] at ha
    rw [Option.some.injEq] at ha
    subst ha
    obtain ⟨⟨hid1, hname1, hurl1⟩, heq1⟩ := ifUpdate_fields before w nw
    obtain ⟨⟨hid2, hname2, hurl2⟩, heq2⟩ :=
      ifUpdate_fields (if jsEqInt w before.id then { before with elo := nw } else before) l nl
    refine ⟨hid2.trans hid1, hname2.trans hname1, hurl2.trans hurl1, ?_⟩
    intro hnw hnl
    rw [heq1 hnw] at heq2 ⊢
    exact heq2 hnl

end Frame

/-- C10: a vote writes only the `elo` fields of the two addressed rows: the
resulting table has the same length, every row keeps its `id`, `name` and
`url`, and any row whose id is neither `winnerId` nor `loserId` is returned
unchanged in every field. -/
theorem vote_frame_effect (db : List Image) (w l : JSNumber) (ipB sesB : Bucket)
    (now : Nat) (storeOk : Bool)
    (_hok : (voteAction db w l ipB sesB now storeOk).result = .ok true) :
    ((voteAction db w l ipB sesB now storeOk).db).length = db.length ∧
    ∀ (i : Nat) (before after : Image),
      db[i]? = some before →
      ((voteAction db w l ipB sesB now storeOk).db)[i]? = some after →
      after.id = before.id ∧ after.name = before.name ∧ after.url = before.url ∧
      (jsEqInt w before.id = false → jsEqInt l before.id = false → after = before) := by
  rcases voteAction_db_cases db w l ipB sesB now storeOk with
    heq | ⟨winner, loser, _, _, heq⟩
  · rw [heq]
    refine ⟨rfl, ?_⟩
    intro i before after hb ha
    rw [hb, Option.some.injEq] at ha
    subst ha
    exact ⟨rfl, rfl, rfl, fun _ _ => rfl⟩
  · rw [heq]
    exact applyTransaction_frame db w l _ _

/-- Witness for C10: a successful vote on the two-row sample table keeps the
table's length. -/
theorem vote_frame_effect_witness :
    ((voteAction [sampleA, sampleB] (.finite 1) (.finite 2) ⟨[], 0⟩ ⟨[], 0⟩ 0 true).db).length = 2 :=
  ((vote_frame_effect [sampleA, sampleB] (.finite 1) (.finite 2) ⟨[], 0⟩ ⟨[], 0⟩ 0 true rfl).1).trans
    rfl
